import Mathlib

/-!
A verification development for the program-enrollments API of this
repository (`lms/djangoapps/program_enrollments/api/v1`).

The read-side projections are embedded directly from
`serializers.py`.  The write-side batch reconciliation handler and the
pagination of the list endpoints live in `views.py`, which is not part
of the sources here (only its tests are); those parts are modelled
from the specification, and each such definition says so in its doc
comment.
-/

/-- A UUID value, kept as its textual content.  The source stores
`program_uuid` and `curriculum_uuid` as UUID fields and renders them
with `text_type` (`str`) when serializing. -/
structure Uuid where
  val : String
deriving DecidableEq, Repr

/-- `text_type(uuid)`: the string form of a UUID. -/
def Uuid.str (u : Uuid) : String := u.val

/-- The `ProgramEnrollment` model (`models.py`, as used by
`serializers.py` and the tests): an external learner identity tied to
a program and curriculum, with a nullable internal account reference
(`user`).  Accounts are represented by their numeric id. -/
structure ProgramEnrollment where
  user : Option Nat
  external_user_key : String
  program_uuid : Uuid
  curriculum_uuid : Uuid
  status : String
deriving DecidableEq, Repr

/-- The `ProgramCourseEnrollment` model: a per-course activation
record owned by a parent `ProgramEnrollment`. -/
structure ProgramCourseEnrollment where
  program_enrollment : ProgramEnrollment
  course_key : String
  status : String
deriving DecidableEq, Repr

/-- The view record produced by both list serializers:
`{student_key, status, account_exists, curriculum_uuid}`. -/
structure EnrollmentView where
  student_key : String
  status : String
  account_exists : Bool
  curriculum_uuid : String
deriving DecidableEq, Repr

/-- `ProgramEnrollmentListSerializer` (serializers.py lines 30-43):
`student_key` sources `external_user_key`, `account_exists` is
`bool(obj.user)`, and `curriculum_uuid` is the record's UUID rendered
as a string. -/
def programEnrollmentListSerialize (obj : ProgramEnrollment) : EnrollmentView :=
  { student_key := obj.external_user_key
    status := obj.status
    account_exists := obj.user.isSome
    curriculum_uuid := obj.curriculum_uuid.str }

/-- `ProgramCourseEnrollmentListSerializer` (serializers.py lines
46-65): `student_key` is `obj.program_enrollment.external_user_key`,
`account_exists` is `bool(obj.program_enrollment.user)`,
`curriculum_uuid` is `text_type(obj.program_enrollment.curriculum_uuid)`,
and `status` is the course enrollment's own status field. -/
def programCourseEnrollmentListSerialize (obj : ProgramCourseEnrollment) : EnrollmentView :=
  { student_key := obj.program_enrollment.external_user_key
    status := obj.status
    account_exists := obj.program_enrollment.user.isSome
    curriculum_uuid := obj.program_enrollment.curriculum_uuid.str }

/-- C8: for every enrollment record projected by either list
serializer, the `account_exists` field is true if and only if the
relevant `user` reference (the parent program enrollment's user, for
course enrollments) is non-null. -/
theorem account_exists_iff_user_present (e : ProgramEnrollment) (ce : ProgramCourseEnrollment) :
    ((programEnrollmentListSerialize e).account_exists = true ↔ e.user ≠ none) ∧
    ((programCourseEnrollmentListSerialize ce).account_exists = true ↔
      ce.program_enrollment.user ≠ none) := by
  constructor <;>
    simp [programEnrollmentListSerialize, programCourseEnrollmentListSerialize,
      Option.isSome_iff_ne_none]

/-- C10: in the program-course-enrollment list projection,
`student_key`, `account_exists` and `curriculum_uuid` are computed
solely from the parent program enrollment: two records sharing a
parent project to identical values for these three fields, whatever
their own `course_key` or `status`, and `curriculum_uuid` is the
string form of the parent's UUID. -/
theorem course_view_parent_determined (a b : ProgramCourseEnrollment)
    (h : a.program_enrollment = b.program_enrollment) :
    (programCourseEnrollmentListSerialize a).student_key
        = (programCourseEnrollmentListSerialize b).student_key ∧
    (programCourseEnrollmentListSerialize a).account_exists
        = (programCourseEnrollmentListSerialize b).account_exists ∧
    (programCourseEnrollmentListSerialize a).curriculum_uuid
        = (programCourseEnrollmentListSerialize b).curriculum_uuid ∧
    (programCourseEnrollmentListSerialize a).curriculum_uuid
        = a.program_enrollment.curriculum_uuid.str := by
  simp [programCourseEnrollmentListSerialize, h]

/-- Concrete instance of `course_view_parent_determined`: two course
enrollments under one parent, with different course keys and statuses. -/
theorem course_view_parent_determined_inst :
    (programCourseEnrollmentListSerialize
        ⟨⟨some 1, "learner-1", ⟨"p"⟩, ⟨"c"⟩, "enrolled"⟩, "course-x", "active"⟩).student_key
      = (programCourseEnrollmentListSerialize
        ⟨⟨some 1, "learner-1", ⟨"p"⟩, ⟨"c"⟩, "enrolled"⟩, "course-y", "inactive"⟩).student_key ∧
    (programCourseEnrollmentListSerialize
        ⟨⟨some 1, "learner-1", ⟨"p"⟩, ⟨"c"⟩, "enrolled"⟩, "course-x", "active"⟩).account_exists
      = (programCourseEnrollmentListSerialize
        ⟨⟨some 1, "learner-1", ⟨"p"⟩, ⟨"c"⟩, "enrolled"⟩, "course-y", "inactive"⟩).account_exists ∧
    (programCourseEnrollmentListSerialize
        ⟨⟨some 1, "learner-1", ⟨"p"⟩, ⟨"c"⟩, "enrolled"⟩, "course-x", "active"⟩).curriculum_uuid
      = (programCourseEnrollmentListSerialize
        ⟨⟨some 1, "learner-1", ⟨"p"⟩, ⟨"c"⟩, "enrolled"⟩, "course-y", "inactive"⟩).curriculum_uuid ∧
    (programCourseEnrollmentListSerialize
        ⟨⟨some 1, "learner-1", ⟨"p"⟩, ⟨"c"⟩, "enrolled"⟩, "course-x", "active"⟩).curriculum_uuid
      = (⟨some 1, "learner-1", ⟨"p"⟩, ⟨"c"⟩, "enrolled"⟩ : ProgramEnrollment).curriculum_uuid.str :=
  course_view_parent_determined
    ⟨⟨some 1, "learner-1", ⟨"p"⟩, ⟨"c"⟩, "enrolled"⟩, "course-x", "active"⟩
    ⟨⟨some 1, "learner-1", ⟨"p"⟩, ⟨"c"⟩, "enrolled"⟩, "course-y", "inactive"⟩
    rfl

/-- A page of results as produced by the cursor-paginated list
endpoints: the page's records, plus `next`/`previous` cursors that are
null exactly when no further page exists in that direction.  Cursors
are abstracted as page indices. -/
structure Page (α : Type) where
  results : List α
  next : Option Nat
  previous : Option Nat
deriving Repr

/-- Modelled from the spec: the page-splitting step of the cursor
pagination collaborator used by the list views (views.py is absent
from src/).  Splits a result set into consecutive pages of `P`
records, the last page possibly shorter. -/
def chunkList {α : Type} (P : Nat) : List α → List (List α)
  | [] => []
  | x :: xs => (x :: xs.take (P - 1)) :: chunkList P (xs.drop (P - 1))
termination_by l => l.length
decreasing_by
  simp only [List.length_drop, List.length_cons]
  omega

/-- Modelled from the spec: cursor pagination over a result set
(views.py is absent from src/).  Page `i` carries chunk `i`, a `next`
cursor when a later page exists, and a `previous` cursor when `i > 0`. -/
def paginate {α : Type} (P : Nat) (xs : List α) : List (Page α) :=
  (chunkList P xs).enum.map (fun ic =>
    { results := ic.2
      next := if ic.1 + 1 < (chunkList P xs).length then some (ic.1 + 1) else none
      previous := if ic.1 = 0 then none else some (ic.1 - 1) })

lemma chunkList_flatten {α : Type} (P : Nat) (xs : List α) :
    (chunkList P xs).flatten = xs := by
  have H : ∀ n (ys : List α), ys.length = n → (chunkList P ys).flatten = ys := by
    intro n
    induction n using Nat.strong_induction_on with
    | _ n ih =>
      intro ys hn
      cases ys with
      | nil => simp [chunkList]
      | cons x tl =>
        rw [chunkList]
        have hlt : (tl.drop (P - 1)).length < n := by
          simp only [List.length_cons] at hn
          simp only [List.length_drop]
          omega
        have := ih _ hlt (tl.drop (P - 1)) rfl
        simp only [List.flatten_cons, this, List.cons_append]
        rw [List.take_append_drop]
  exact H xs.length xs rfl

lemma chunkList_length {α : Type} (P : Nat) (hP : 0 < P) (xs : List α) :
    (chunkList P xs).length = (xs.length + P - 1) / P := by
  have H : ∀ n (ys : List α), ys.length = n →
      (chunkList P ys).length = (ys.length + P - 1) / P := by
    intro n
    induction n using Nat.strong_induction_on with
    | _ n ih =>
      intro ys hn
      cases ys with
      | nil =>
        simp only [chunkList, List.length_nil]
        rw [Nat.div_eq_of_lt (by omega)]
      | cons x tl =>
        rw [chunkList]
        have hlt : (tl.drop (P - 1)).length < n := by
          simp only [List.length_cons] at hn
          simp only [List.length_drop]
          omega
        have htl := ih _ hlt (tl.drop (P - 1)) rfl
        simp only [List.length_cons, htl, List.length_drop]
        rcases Nat.lt_or_ge tl.length P with hc | hc
        · have e1 : tl.length - (P - 1) + P - 1 = P - 1 := by omega
          have e2 : tl.length + 1 + P - 1 = tl.length + P := by omega
          rw [e1, e2, Nat.add_div_right _ hP, Nat.div_eq_of_lt (by omega),
            Nat.div_eq_of_lt hc]
        · have h2 : tl.length - (P - 1) + P - 1 = tl.length := by omega
          have h3 : tl.length + 1 + P - 1 = tl.length + P := by omega
          rw [h2, h3, ← Nat.add_div_right tl.length hP]
  exact H xs.length xs rfl

lemma paginate_length {α : Type} (P : Nat) (xs : List α) :
    (paginate P xs).length = (chunkList P xs).length := by
  simp [paginate]

lemma paginate_get {α : Type} (P : Nat) (xs : List α) (i : Nat)
    (h : i < (paginate P xs).length) :
    (paginate P xs).get ⟨i, h⟩ =
      { results := (chunkList P xs).get ⟨i, by
          have := paginate_length P xs; omega⟩
        next := if i + 1 < (chunkList P xs).length then some (i + 1) else none
        previous := if i = 0 then none else some (i - 1) } := by
  simp only [paginate, List.get_map, List.get_enum]
  rfl

/-- C9: listing a stored result set of size `K` with page size `P > 0`
yields `ceil(K / P)` pages; concatenating all pages' results in cursor
order reproduces the full result set in its stored order; the first
page has `previous = null`, the last page has `next = null`, and every
intermediate link is a non-null cursor. -/
theorem pagination_pages_spec (P : Nat) (hP : 0 < P) (xs : List EnrollmentView) :
    (paginate P xs).length = (xs.length + P - 1) / P ∧
    ((paginate P xs).map Page.results).flatten = xs ∧
    (∀ h0 : 0 < (paginate P xs).length,
      ((paginate P xs).get ⟨0, h0⟩).previous = none) ∧
    (∀ i, ∀ h : i < (paginate P xs).length, i + 1 = (paginate P xs).length →
      ((paginate P xs).get ⟨i, h⟩).next = none) ∧
    (∀ i, ∀ h : i < (paginate P xs).length, 0 < i →
      ((paginate P xs).get ⟨i, h⟩).previous = some (i - 1)) ∧
    (∀ i, ∀ h : i < (paginate P xs).length, i + 1 < (paginate P xs).length →
      ((paginate P xs).get ⟨i, h⟩).next = some (i + 1)) := by
  have hmap : (paginate P xs).map Page.results = chunkList P xs := by
    simp only [paginate, List.map_map]
    have hfun : (Page.results ∘ fun ic : Nat × List EnrollmentView =>
        ({ results := ic.2
           next := if ic.1 + 1 < (chunkList P xs).length then some (ic.1 + 1) else none
           previous := if ic.1 = 0 then none else some (ic.1 - 1) } : Page EnrollmentView))
        = Prod.snd := by
      funext ic
      rfl
    rw [hfun, List.enum_map_snd]
  refine ⟨?_, ?_, ?_, ?_, ?_, ?_⟩
  · rw [paginate_length, chunkList_length P hP]
  · rw [hmap, chunkList_flatten]
  · intro h0
    rw [paginate_get]
    simp
  · intro i h hi
    rw [paginate_get]
    have hnl : ¬ (i + 1 < (chunkList P xs).length) := by
      rw [paginate_length] at hi
      omega
    simp [hnl]
  · intro i h hi
    rw [paginate_get]
    simp [Nat.pos_iff_ne_zero.mp hi]
  · intro i h hi
    rw [paginate_get]
    have hl : i + 1 < (chunkList P xs).length := by
      rw [paginate_length] at hi
      exact hi
    simp [hl]

/-- A small fixed result set used to instantiate the pagination
property on concrete data. -/
def sampleViews : List EnrollmentView :=
  [⟨"user-0", "pending", false, "c"⟩, ⟨"user-1", "pending", false, "c"⟩,
   ⟨"user-2", "enrolled", true, "c"⟩]

/-- Concrete instance of `pagination_pages_spec`: three views listed
at page size two. -/
theorem pagination_pages_spec_inst :
    (paginate 2 sampleViews).length = (sampleViews.length + 2 - 1) / 2 ∧
    ((paginate 2 sampleViews).map Page.results).flatten = sampleViews ∧
    (∀ h0 : 0 < (paginate 2 sampleViews).length,
      ((paginate 2 sampleViews).get ⟨0, h0⟩).previous = none) ∧
    (∀ i, ∀ h : i < (paginate 2 sampleViews).length, i + 1 = (paginate 2 sampleViews).length →
      ((paginate 2 sampleViews).get ⟨i, h⟩).next = none) ∧
    (∀ i, ∀ h : i < (paginate 2 sampleViews).length, 0 < i →
      ((paginate 2 sampleViews).get ⟨i, h⟩).previous = some (i - 1)) ∧
    (∀ i, ∀ h : i < (paginate 2 sampleViews).length, i + 1 < (paginate 2 sampleViews).length →
      ((paginate 2 sampleViews).get ⟨i, h⟩).next = some (i + 1)) :=
  pagination_pages_spec 2 (by decide) sampleViews

/-- Modelled from the spec: the `status` values accepted by the batch
endpoint (`pending`, `enrolled`); views.py, which enforces this, is
absent from src/. -/
def validStatus (s : String) : Bool := s == "pending" || s == "enrolled"

/-- One item of a POST batch: `{external_user_key, curriculum_uuid,
status}`, where either identifying field may be missing from the
submitted JSON object. -/
structure EnrollmentRequestItem where
  external_user_key : Option String
  curriculum_uuid : Option Uuid
  status : String
deriving DecidableEq, Repr

/-- Modelled from the spec: per-item validation of the batch endpoint
(views.py is absent from src/): `external_user_key` and
`curriculum_uuid` must be present and `status` must be an accepted
enum value. -/
def validItem (it : EnrollmentRequestItem) : Bool :=
  it.external_user_key.isSome && it.curriculum_uuid.isSome && validStatus it.status

/-- Modelled from the spec: the create-or-update step of the Batch
Reconciler (views.py is absent from src/).  An existing enrollment for
`(pk, key)` is updated in place (curriculum and status); otherwise a
new record is created, resolving `user` through the account-by
external-key lookup collaborator, whose result may be null. -/
def upsertEnrollment (db : List ProgramEnrollment) (pk : Uuid) (key : String)
    (curr : Uuid) (st : String) (lookup : Uuid → String → Option Nat) :
    List ProgramEnrollment :=
  if db.any (fun e => decide (e.program_uuid = pk ∧ e.external_user_key = key)) then
    db.map (fun e =>
      if e.program_uuid = pk ∧ e.external_user_key = key then
        { e with curriculum_uuid := curr, status := st }
      else e)
  else
    db ++ [{ user := lookup pk key, external_user_key := key, program_uuid := pk,
             curriculum_uuid := curr, status := st }]

/-- The running state of one batch reconciliation: the store, the
per-key outcome mapping built so far (an association list), and the
count of items rejected by validation that carried no key at all (they
cannot appear in the mapping but still count as failures). -/
structure ReconcileState where
  db : List ProgramEnrollment
  results : List (String × String)
  invalidNoKey : Nat
deriving Repr

/-- Whether the outcome mapping already holds an entry for `k`. -/
def hasResultKey (results : List (String × String)) (k : String) : Bool :=
  results.any (fun p => decide (p.1 = k))

/-- Replace the outcome recorded for `k` (or append it when absent). -/
def setResult (results : List (String × String)) (k v : String) :
    List (String × String) :=
  if hasResultKey results k then
    results.map (fun p => if p.1 = k then (k, v) else p)
  else
    results ++ [(k, v)]

/-- Modelled from the spec: processing of a single batch item by the
Batch Reconciler (views.py is absent from src/).  A key already seen
in this batch marks the key `duplicated` and is skipped for
persistence; otherwise a valid item is upserted and its key mapped to
the submitted status, and an invalid item is mapped to
`invalid-status` with no write. -/
def processItem (pk : Uuid) (lookup : Uuid → String → Option Nat)
    (st : ReconcileState) (it : EnrollmentRequestItem) : ReconcileState :=
  match it.external_user_key with
  | none => { st with invalidNoKey := st.invalidNoKey + 1 }
  | some key =>
    if hasResultKey st.results key then
      { st with results := setResult st.results key "duplicated" }
    else if validItem it then
      { db := upsertEnrollment st.db pk key (it.curriculum_uuid.getD ⟨""⟩) it.status lookup
        results := st.results ++ [(key, it.status)]
        invalidNoKey := st.invalidNoKey }
    else
      { st with results := st.results ++ [(key, "invalid-status")] }

/-- Modelled from the spec: the Batch Reconciler (views.py is absent
from src/): an ordered pass over the batch from an empty outcome
mapping. -/
def reconcile (pk : Uuid) (lookup : Uuid → String → Option Nat)
    (db : List ProgramEnrollment) (requests : List EnrollmentRequestItem) :
    ReconcileState :=
  requests.foldl (processItem pk lookup) ⟨db, [], 0⟩

/-- An outcome token that marks a rejected item rather than a
persisted status. -/
def isRejectionToken (v : String) : Bool := v == "duplicated" || v == "invalid-status"

/-- The HTTP-shaped result of a POST: status code, per-key outcome
body, and the store after the request. -/
structure PostResponse where
  code : Nat
  body : List (String × String)
  db : List ProgramEnrollment
deriving Repr

/-- Modelled from the spec: the POST batch handler and Result
Aggregator (views.py is absent from src/).  An unresolved program key
yields 404 before any batch work, independent of the batch contents; a
batch longer than 25 yields 413 before any per-item processing; then
the reconciled outcome map yields 201 when every item succeeded, 422
when no item succeeded, and 207 for mixed outcomes. -/
def enrollmentsPost (programExists : Bool) (lookup : Uuid → String → Option Nat)
    (db : List ProgramEnrollment) (pk : Uuid)
    (requests : List EnrollmentRequestItem) : PostResponse :=
  if !programExists then ⟨404, [], db⟩
  else if requests.length > 25 then ⟨413, [], db⟩
  else
    let st := reconcile pk lookup db requests
    let anyFail := decide (0 < st.invalidNoKey) || st.results.any (fun p => isRejectionToken p.2)
    let anySuccess := st.results.any (fun p => !isRejectionToken p.2)
    if !anyFail then ⟨201, st.results, st.db⟩
    else if !anySuccess then ⟨422, st.results, st.db⟩
    else ⟨207, st.results, st.db⟩

/-- Modelled from the spec: the GET list handler (views.py is absent
from src/): 404 when the program key does not resolve through the
catalog lookup, otherwise the paginated projection of the program's
stored enrollments. -/
def enrollmentsGet (programExists : Bool) (db : List ProgramEnrollment) (pk : Uuid)
    (pageSize : Nat) : Nat × List (Page EnrollmentView) :=
  if !programExists then (404, [])
  else
    (200, paginate pageSize
      ((db.filter (fun e => decide (e.program_uuid = pk))).map programEnrollmentListSerialize))

/-- A stored enrollment for `(pk, k)` carrying status `s` and
curriculum `c`. -/
def recordFor (pk : Uuid) (k : String) (s : String) (c : Uuid)
    (db : List ProgramEnrollment) : Prop :=
  ∃ e ∈ db, e.program_uuid = pk ∧ e.external_user_key = k ∧ e.status = s ∧
    e.curriculum_uuid = c

/-- No stored enrollment exists for `(pk, k)`. -/
def noRecord (pk : Uuid) (k : String) (db : List ProgramEnrollment) : Prop :=
  ∀ e ∈ db, ¬(e.program_uuid = pk ∧ e.external_user_key = k)

lemma hasResultKey_append (rs : List (String × String)) (q : String × String) (k : String) :
    hasResultKey (rs ++ [q]) k = (hasResultKey rs k || decide (q.1 = k)) := by
  simp [hasResultKey]

lemma hasResultKey_map_set (rs : List (String × String)) (kx v k : String) :
    hasResultKey (rs.map (fun p => if p.1 = kx then (kx, v) else p)) k
      = hasResultKey rs k := by
  induction rs with
  | nil => rfl
  | cons q tl ih =>
    simp only [List.map_cons, hasResultKey, List.any_cons] at ih ⊢
    rw [ih]
    congr 1
    by_cases hq : q.1 = kx
    · simp [hq]
    · rw [if_neg hq]

lemma setResult_hasKey_of_present (rs : List (String × String)) (kx v k : String)
    (h : hasResultKey rs kx = true) :
    hasResultKey (setResult rs kx v) k = hasResultKey rs k := by
  unfold setResult
  rw [if_pos h, hasResultKey_map_set]

lemma setResult_mem (rs : List (String × String)) (kx v : String) (q : String × String)
    (h : q ∈ rs) (hne : q.1 ≠ kx) : q ∈ setResult rs kx v := by
  unfold setResult
  by_cases hp : hasResultKey rs kx = true
  · rw [if_pos hp]
    exact List.mem_map.mpr ⟨q, h, by rw [if_neg hne]⟩
  · rw [if_neg hp]
    exact List.mem_append_left _ h

lemma upsertEnrollment_recordFor (db : List ProgramEnrollment) (pk : Uuid) (k : String)
    (c : Uuid) (s : String) (lookup : Uuid → String → Option Nat) :
    recordFor pk k s c (upsertEnrollment db pk k c s lookup) := by
  unfold upsertEnrollment recordFor
  by_cases h : db.any (fun e => decide (e.program_uuid = pk ∧ e.external_user_key = k)) = true
  · rw [if_pos h]
    obtain ⟨e, he, hm⟩ := List.any_eq_true.mp h
    rw [decide_eq_true_eq] at hm
    exact ⟨{ e with curriculum_uuid := c, status := s },
      List.mem_map.mpr ⟨e, he, by rw [if_pos hm]⟩, hm.1, hm.2, rfl, rfl⟩
  · rw [if_neg h]
    refine ⟨{ user := lookup pk k, external_user_key := k, program_uuid := pk,
              curriculum_uuid := c, status := s },
      List.mem_append_right _ (by simp), rfl, rfl, rfl, rfl⟩

lemma upsertEnrollment_preserves (db : List ProgramEnrollment) (pk : Uuid)
    (k s : String) (c : Uuid) (kx : String) (cx : Uuid) (sx : String)
    (lookup : Uuid → String → Option Nat)
    (hne : k ≠ kx) (h : recordFor pk k s c db) :
    recordFor pk k s c (upsertEnrollment db pk kx cx sx lookup) := by
  obtain ⟨e, he, h1, h2, h3, h4⟩ := h
  unfold upsertEnrollment
  by_cases hb : db.any (fun x => decide (x.program_uuid = pk ∧ x.external_user_key = kx)) = true
  · rw [if_pos hb]
    refine ⟨e, List.mem_map.mpr ⟨e, he, ?_⟩, h1, h2, h3, h4⟩
    rw [if_neg]
    rintro ⟨-, hk⟩
    exact hne (h2 ▸ hk)
  · rw [if_neg hb]
    exact ⟨e, List.mem_append_left _ he, h1, h2, h3, h4⟩

lemma upsertEnrollment_noRecord (db : List ProgramEnrollment) (pk : Uuid) (k kx : String)
    (cx : Uuid) (sx : String) (lookup : Uuid → String → Option Nat)
    (hne : k ≠ kx) (h : noRecord pk k db) :
    noRecord pk k (upsertEnrollment db pk kx cx sx lookup) := by
  unfold upsertEnrollment
  by_cases hb : db.any (fun x => decide (x.program_uuid = pk ∧ x.external_user_key = kx)) = true
  · rw [if_pos hb]
    intro ex hex
    obtain ⟨e, he, hee⟩ := List.mem_map.mp hex
    have hfields : ex.program_uuid = e.program_uuid ∧
        ex.external_user_key = e.external_user_key := by
      rw [← hee]
      by_cases hc : e.program_uuid = pk ∧ e.external_user_key = kx
      · rw [if_pos hc]
        exact ⟨rfl, rfl⟩
      · rw [if_neg hc]
        exact ⟨rfl, rfl⟩
    rintro ⟨hp, hk2⟩
    exact h e he ⟨hfields.1.symm.trans hp, hfields.2.symm.trans hk2⟩
  · rw [if_neg hb]
    intro ex hex
    rcases List.mem_append.mp hex with hl | hr
    · exact h ex hl
    · rw [List.mem_singleton.mp hr]
      rintro ⟨-, hk2⟩
      exact hne hk2.symm

lemma processItem_keeps (pk : Uuid) (lookup : Uuid → String → Option Nat)
    (st : ReconcileState) (it : EnrollmentRequestItem) (k s : String) (c : Uuid)
    (hseen : hasResultKey st.results k = true)
    (hrec : recordFor pk k s c st.db) :
    hasResultKey (processItem pk lookup st it).results k = true ∧
    recordFor pk k s c (processItem pk lookup st it).db := by
  unfold processItem
  cases hkey : it.external_user_key with
  | none => exact ⟨hseen, hrec⟩
  | some key =>
    dsimp only
    by_cases hdup : hasResultKey st.results key = true
    · rw [if_pos hdup]
      exact ⟨(setResult_hasKey_of_present st.results key "duplicated" k hdup).trans hseen, hrec⟩
    · rw [if_neg hdup]
      have hne : k ≠ key := by
        intro he
        exact hdup (he ▸ hseen)
      by_cases hv : validItem it = true
      · rw [if_pos hv]
        refine ⟨?_, upsertEnrollment_preserves st.db pk k s c key _ it.status lookup hne hrec⟩
        rw [hasResultKey_append]
        rw [hseen]
        rfl
      · rw [if_neg hv]
        refine ⟨?_, hrec⟩
        rw [hasResultKey_append]
        rw [hseen]
        rfl

lemma foldl_keeps (pk : Uuid) (lookup : Uuid → String → Option Nat) (k s : String) (c : Uuid)
    (l : List EnrollmentRequestItem) :
    ∀ st : ReconcileState, hasResultKey st.results k = true → recordFor pk k s c st.db →
      hasResultKey (l.foldl (processItem pk lookup) st).results k = true ∧
      recordFor pk k s c (l.foldl (processItem pk lookup) st).db := by
  induction l with
  | nil => exact fun st h1 h2 => ⟨h1, h2⟩
  | cons it tl ih =>
    intro st h1 h2
    rw [List.foldl_cons]
    have h := processItem_keeps pk lookup st it k s c h1 h2
    exact ih _ h.1 h.2

lemma processItem_unseen (pk : Uuid) (lookup : Uuid → String → Option Nat)
    (st : ReconcileState) (it : EnrollmentRequestItem) (k : String)
    (hk : it.external_user_key ≠ some k)
    (h : hasResultKey st.results k = false) :
    hasResultKey (processItem pk lookup st it).results k = false := by
  unfold processItem
  cases hkey : it.external_user_key with
  | none => exact h
  | some key =>
    dsimp only
    have hne : key ≠ k := by
      intro he
      exact hk (he ▸ hkey)
    by_cases hdup : hasResultKey st.results key = true
    · rw [if_pos hdup]
      exact (setResult_hasKey_of_present st.results key "duplicated" k hdup).trans h
    · rw [if_neg hdup]
      by_cases hv : validItem it = true
      · rw [if_pos hv]
        rw [hasResultKey_append, h]
        simp [hne]
      · rw [if_neg hv]
        rw [hasResultKey_append, h]
        simp [hne]

lemma foldl_unseen (pk : Uuid) (lookup : Uuid → String → Option Nat) (k : String)
    (l : List EnrollmentRequestItem) (hl : ∀ it ∈ l, it.external_user_key ≠ some k) :
    ∀ st : ReconcileState, hasResultKey st.results k = false →
      hasResultKey (l.foldl (processItem pk lookup) st).results k = false := by
  induction l with
  | nil => exact fun st h => h
  | cons it tl ih =>
    intro st h
    rw [List.foldl_cons]
    exact ih (fun x hx => hl x (List.mem_cons_of_mem _ hx)) _
      (processItem_unseen pk lookup st it k (hl it (List.mem_cons_self _ _)) h)

lemma processItem_mem (pk : Uuid) (lookup : Uuid → String → Option Nat)
    (st : ReconcileState) (it : EnrollmentRequestItem) (q : String × String)
    (h : q ∈ st.results) (hk : it.external_user_key ≠ some q.1) :
    q ∈ (processItem pk lookup st it).results := by
  unfold processItem
  cases hkey : it.external_user_key with
  | none => exact h
  | some key =>
    dsimp only
    have hne : q.1 ≠ key := by
      intro he
      exact hk (he ▸ hkey)
    by_cases hdup : hasResultKey st.results key = true
    · rw [if_pos hdup]
      exact setResult_mem st.results key "duplicated" q h hne
    · rw [if_neg hdup]
      by_cases hv : validItem it = true
      · rw [if_pos hv]
        exact List.mem_append_left _ h
      · rw [if_neg hv]
        exact List.mem_append_left _ h

lemma foldl_mem (pk : Uuid) (lookup : Uuid → String → Option Nat) (q : String × String)
    (l : List EnrollmentRequestItem) (hl : ∀ it ∈ l, it.external_user_key ≠ some q.1) :
    ∀ st : ReconcileState, q ∈ st.results →
      q ∈ (l.foldl (processItem pk lookup) st).results := by
  induction l with
  | nil => exact fun st h => h
  | cons it tl ih =>
    intro st h
    rw [List.foldl_cons]
    exact ih (fun x hx => hl x (List.mem_cons_of_mem _ hx)) _
      (processItem_mem pk lookup st it q h (hl it (List.mem_cons_self _ _)))

lemma processItem_noRecord (pk : Uuid) (lookup : Uuid → String → Option Nat)
    (st : ReconcileState) (it : EnrollmentRequestItem) (k : String)
    (hk : it.external_user_key ≠ some k)
    (h : noRecord pk k st.db) :
    noRecord pk k (processItem pk lookup st it).db := by
  unfold processItem
  cases hkey : it.external_user_key with
  | none => exact h
  | some key =>
    dsimp only
    have hne : k ≠ key := by
      intro he
      exact hk (he ▸ hkey)
    by_cases hdup : hasResultKey st.results key = true
    · rw [if_pos hdup]
      exact h
    · rw [if_neg hdup]
      by_cases hv : validItem it = true
      · rw [if_pos hv]
        exact upsertEnrollment_noRecord st.db pk k key _ it.status lookup hne h
      · rw [if_neg hv]
        exact h

lemma foldl_noRecord (pk : Uuid) (lookup : Uuid → String → Option Nat) (k : String)
    (l : List EnrollmentRequestItem) (hl : ∀ it ∈ l, it.external_user_key ≠ some k) :
    ∀ st : ReconcileState, noRecord pk k st.db →
      noRecord pk k (l.foldl (processItem pk lookup) st).db := by
  induction l with
  | nil => exact fun st h => h
  | cons it tl ih =>
    intro st h
    rw [List.foldl_cons]
    exact ih (fun x hx => hl x (List.mem_cons_of_mem _ hx)) _
      (processItem_noRecord pk lookup st it k (hl it (List.mem_cons_self _ _)) h)

lemma enrollmentsPost_eq (lookup : Uuid → String → Option Nat)
    (db : List ProgramEnrollment) (pk : Uuid) (requests : List EnrollmentRequestItem)
    (hlen : requests.length ≤ 25) :
    (enrollmentsPost true lookup db pk requests).db
        = (reconcile pk lookup db requests).db ∧
    (enrollmentsPost true lookup db pk requests).body
        = (reconcile pk lookup db requests).results := by
  unfold enrollmentsPost
  rw [if_neg (by simp), if_neg (by omega)]
  dsimp only
  split
  · exact ⟨rfl, rfl⟩
  · split
    · exact ⟨rfl, rfl⟩
    · exact ⟨rfl, rfl⟩

/-- C7: a request whose program key does not resolve through the
catalog lookup answers 404, for the GET list and the POST batch alike,
whatever the batch or query contents, and no record is created or
updated (the store is returned unchanged and no per-item work shows in
the body). -/
theorem unknown_program_404 (lookup : Uuid → String → Option Nat)
    (db : List ProgramEnrollment) (pk : Uuid)
    (requests : List EnrollmentRequestItem) (pageSize : Nat) :
    (enrollmentsPost false lookup db pk requests).code = 404 ∧
    (enrollmentsPost false lookup db pk requests).db = db ∧
    (enrollmentsPost false lookup db pk requests).body = [] ∧
    (enrollmentsGet false db pk pageSize).1 = 404 := by
  exact ⟨rfl, rfl, rfl, rfl⟩

/-- C5, counterexample: a batch of 26 items posted for a program key
that does not resolve is answered 404, not 413 — the resource check
runs before the size check, so the claim "every batch longer than 25
yields 413" fails as stated. -/
theorem oversize_batch_unknown_program_404 :
    (enrollmentsPost false (fun _ _ => none) [] ⟨"p"⟩
      (List.replicate 26 ⟨some "k", some ⟨"c"⟩, "enrolled"⟩)).code = 404 ∧
    ¬ (enrollmentsPost false (fun _ _ => none) [] ⟨"p"⟩
      (List.replicate 26 ⟨some "k", some ⟨"c"⟩, "enrolled"⟩)).code = 413 := by
  exact ⟨rfl, by simp [enrollmentsPost]⟩

/-- C5, amended: for a program key that resolves, a batch whose length
exceeds 25 is rejected whole with 413 before any per-item processing:
the store is unchanged and the body carries no per-item outcome. -/
theorem post_oversize_batch_rejected (lookup : Uuid → String → Option Nat)
    (db : List ProgramEnrollment) (pk : Uuid)
    (requests : List EnrollmentRequestItem) (h : 25 < requests.length) :
    (enrollmentsPost true lookup db pk requests).code = 413 ∧
    (enrollmentsPost true lookup db pk requests).db = db ∧
    (enrollmentsPost true lookup db pk requests).body = [] := by
  unfold enrollmentsPost
  rw [if_neg (by simp), if_pos (by omega)]
  exact ⟨rfl, rfl, rfl⟩

/-- Concrete instance of `post_oversize_batch_rejected`: 26 identical
items. -/
theorem post_oversize_batch_rejected_inst :
    (enrollmentsPost true (fun _ _ => none) [] ⟨"p"⟩
      (List.replicate 26 ⟨some "k", some ⟨"c"⟩, "enrolled"⟩)).code = 413 ∧
    (enrollmentsPost true (fun _ _ => none) [] ⟨"p"⟩
      (List.replicate 26 ⟨some "k", some ⟨"c"⟩, "enrolled"⟩)).db = [] ∧
    (enrollmentsPost true (fun _ _ => none) [] ⟨"p"⟩
      (List.replicate 26 ⟨some "k", some ⟨"c"⟩, "enrolled"⟩)).body = [] :=
  post_oversize_batch_rejected (fun _ _ => none) [] ⟨"p"⟩
    (List.replicate 26 ⟨some "k", some ⟨"c"⟩, "enrolled"⟩) (by simp)

/-- C4: when the reconciler's create-or-update step creates a new
enrollment for a pair `(pk, k)` with no existing record, the created
record's `user` field equals the account-by-external-key lookup result
for that pair — the matched account when the lookup returns one, and
null when it returns null, both persisted as-is. -/
theorem upsert_create_user_from_lookup (db : List ProgramEnrollment) (pk : Uuid)
    (k : String) (c : Uuid) (s : String) (lookup : Uuid → String → Option Nat)
    (habs : ∀ e ∈ db, ¬(e.program_uuid = pk ∧ e.external_user_key = k)) :
    ∃ e ∈ upsertEnrollment db pk k c s lookup,
      e.program_uuid = pk ∧ e.external_user_key = k ∧ e.user = lookup pk k := by
  have hany : db.any (fun e => decide (e.program_uuid = pk ∧ e.external_user_key = k))
      = false := by
    rw [List.any_eq_false]
    intro e he
    simpa using habs e he
  unfold upsertEnrollment
  rw [if_neg (by rw [hany]; simp)]
  exact ⟨{ user := lookup pk k, external_user_key := k, program_uuid := pk,
           curriculum_uuid := c, status := s },
    List.mem_append_right _ (by simp), rfl, rfl, rfl⟩

/-- Concrete instance of `upsert_create_user_from_lookup`: an empty
store and a lookup that matches account 7. -/
theorem upsert_create_user_from_lookup_inst :
    ∃ e ∈ upsertEnrollment [] ⟨"p"⟩ "abc1" ⟨"c"⟩ "enrolled" (fun _ _ => some 7),
      e.program_uuid = (⟨"p"⟩ : Uuid) ∧ e.external_user_key = "abc1" ∧
      e.user = (fun _ _ => some 7 : Uuid → String → Option Nat) ⟨"p"⟩ "abc1" :=
  upsert_create_user_from_lookup [] ⟨"p"⟩ "abc1" ⟨"c"⟩ "enrolled" (fun _ _ => some 7)
    (by simp)

/-- C1: a batch whose key `001` appears twice (around a distinct key
`002`, all statuses `enrolled`) answers 207, and the body maps the
repeated key to `duplicated` and the other key to its submitted
status, with one entry per distinct key. -/
theorem post_duplicate_key_response (pk : Uuid) (lookup : Uuid → String → Option Nat)
    (db : List ProgramEnrollment) (c1 c2 c3 : Uuid) :
    (enrollmentsPost true lookup db pk
      [⟨some "001", some c1, "enrolled"⟩, ⟨some "002", some c2, "enrolled"⟩,
       ⟨some "001", some c3, "enrolled"⟩]).code = 207 ∧
    (enrollmentsPost true lookup db pk
      [⟨some "001", some c1, "enrolled"⟩, ⟨some "002", some c2, "enrolled"⟩,
       ⟨some "001", some c3, "enrolled"⟩]).body
      = [("001", "duplicated"), ("002", "enrolled")] ∧
    ((enrollmentsPost true lookup db pk
      [⟨some "001", some c1, "enrolled"⟩, ⟨some "002", some c2, "enrolled"⟩,
       ⟨some "001", some c3, "enrolled"⟩]).body.map Prod.fst).Nodup := by
  refine ⟨?_, ?_, ?_⟩ <;>
    simp [enrollmentsPost, reconcile, processItem, validItem, validStatus,
      hasResultKey, setResult, isRejectionToken]

lemma processItem_first_valid (pk : Uuid) (lookup : Uuid → String → Option Nat)
    (st : ReconcileState) (k : String) (c1 : Uuid) (s1 : String)
    (hunseen : hasResultKey st.results k = false)
    (hvalid : validStatus s1 = true) :
    processItem pk lookup st ⟨some k, some c1, s1⟩ =
      { db := upsertEnrollment st.db pk k c1 s1 lookup
        results := st.results ++ [(k, s1)]
        invalidNoKey := st.invalidNoKey } := by
  unfold processItem
  dsimp only
  rw [if_neg (by rw [hunseen]; simp), if_pos (by simp [validItem, hvalid])]
  rfl

/-- C2: in a batch where key `k` first appears as a valid item and
appears again later, the later occurrences are skipped for
persistence: after the request a stored enrollment for `k` carries the
first occurrence's status and curriculum. -/
theorem post_first_occurrence_persisted (pk : Uuid) (lookup : Uuid → String → Option Nat)
    (db0 : List ProgramEnrollment) (pre post : List EnrollmentRequestItem)
    (k : String) (c1 : Uuid) (s1 : String)
    (hfirst : ∀ it ∈ pre, it.external_user_key ≠ some k)
    (hrepeat : ∃ it ∈ post, it.external_user_key = some k)
    (hvalid : validStatus s1 = true)
    (hlen : (pre ++ ⟨some k, some c1, s1⟩ :: post).length ≤ 25) :
    ∃ e ∈ (enrollmentsPost true lookup db0 pk (pre ++ ⟨some k, some c1, s1⟩ :: post)).db,
      e.program_uuid = pk ∧ e.external_user_key = k ∧ e.status = s1 ∧
      e.curriculum_uuid = c1 := by
  rw [(enrollmentsPost_eq lookup db0 pk _ hlen).1]
  unfold reconcile
  rw [List.foldl_append, List.foldl_cons]
  have hunseen : hasResultKey (pre.foldl (processItem pk lookup)
      ⟨db0, [], 0⟩).results k = false :=
    foldl_unseen pk lookup k pre hfirst _ rfl
  rw [processItem_first_valid pk lookup _ k c1 s1 hunseen hvalid]
  refine (foldl_keeps pk lookup k s1 c1 post _ ?_ ?_).2
  · rw [hasResultKey_append, hunseen]
    simp
  · exact upsertEnrollment_recordFor _ pk k c1 s1 lookup

/-- Concrete instance of `post_first_occurrence_persisted`: key `001`
submitted twice, the first occurrence valid. -/
theorem post_first_occurrence_persisted_inst :
    ∃ e ∈ (enrollmentsPost true (fun _ _ => none) [] ⟨"p"⟩
        ([] ++ ⟨some "001", some ⟨"cu1"⟩, "enrolled"⟩ ::
          [⟨some "001", some ⟨"cu2"⟩, "enrolled"⟩])).db,
      e.program_uuid = (⟨"p"⟩ : Uuid) ∧ e.external_user_key = "001" ∧
      e.status = "enrolled" ∧ e.curriculum_uuid = (⟨"cu1"⟩ : Uuid) :=
  post_first_occurrence_persisted ⟨"p"⟩ (fun _ _ => none) [] []
    [⟨some "001", some ⟨"cu2"⟩, "enrolled"⟩] "001" ⟨"cu1"⟩ "enrolled"
    (by simp) ⟨⟨some "001", some ⟨"cu2"⟩, "enrolled"⟩, by simp, rfl⟩ rfl (by simp)

lemma validStatus_not_rejection (s : String) (h : validStatus s = true) :
    isRejectionToken s = false := by
  have hs : s = "pending" ∨ s = "enrolled" := by
    simpa [validStatus] using h
  rcases hs with h1 | h1 <;> subst h1 <;> rfl

lemma validItem_fields (it : EnrollmentRequestItem) (h : validItem it = true) :
    ∃ k c, it.external_user_key = some k ∧ it.curriculum_uuid = some c ∧
      validStatus it.status = true := by
  have h' : ((it.external_user_key.isSome && it.curriculum_uuid.isSome)
      && validStatus it.status) = true := h
  rw [Bool.and_eq_true, Bool.and_eq_true] at h'
  obtain ⟨⟨h1, h2⟩, h3⟩ := h'
  cases hk : it.external_user_key with
  | none =>
    rw [hk] at h1
    simp at h1
  | some k =>
    cases hc : it.curriculum_uuid with
    | none =>
      rw [hc] at h2
      simp at h2
    | some c => exact ⟨k, c, rfl, rfl, h3⟩

lemma reconcile_good (pk : Uuid) (lookup : Uuid → String → Option Nat) :
    ∀ (l : List EnrollmentRequestItem) (st : ReconcileState),
      (∀ it ∈ l, validItem it = true) →
      (l.map (fun it => it.external_user_key)).Nodup →
      (∀ it ∈ l, ∀ k1, it.external_user_key = some k1 →
        hasResultKey st.results k1 = false) →
      st.invalidNoKey = 0 →
      (∀ p ∈ st.results, isRejectionToken p.2 = false) →
      (l.foldl (processItem pk lookup) st).invalidNoKey = 0 ∧
      (∀ p ∈ (l.foldl (processItem pk lookup) st).results,
        isRejectionToken p.2 = false) ∧
      (∀ it ∈ l, ∀ k1 c1, it.external_user_key = some k1 →
        it.curriculum_uuid = some c1 →
        recordFor pk k1 it.status c1 (l.foldl (processItem pk lookup) st).db) := by
  intro l
  induction l with
  | nil =>
    intro st _ _ _ h4 h5
    exact ⟨h4, h5, by simp⟩
  | cons it0 tl ih =>
    intro st hval hnd hdisj h0 hgood
    obtain ⟨k0, c0, hk0, hc0, hs0⟩ :=
      validItem_fields it0 (hval it0 (List.mem_cons_self _ _))
    have hnotseen : hasResultKey st.results k0 = false :=
      hdisj it0 (List.mem_cons_self _ _) k0 hk0
    have hstep : processItem pk lookup st it0 =
        { db := upsertEnrollment st.db pk k0 c0 it0.status lookup
          results := st.results ++ [(k0, it0.status)]
          invalidNoKey := st.invalidNoKey } := by
      cases it0 with
      | mk ku cu su =>
        dsimp only at hk0 hc0 hs0 ⊢
        subst hk0
        subst hc0
        exact processItem_first_valid pk lookup st k0 c0 su hnotseen hs0
    rw [List.map_cons] at hnd
    have hnotmem : some k0 ∉ tl.map (fun it => it.external_user_key) := by
      have := (List.nodup_cons.mp hnd).1
      rw [hk0] at this
      exact this
    have hndtl := (List.nodup_cons.mp hnd).2
    rw [List.foldl_cons, hstep]
    have hih := ih ⟨upsertEnrollment st.db pk k0 c0 it0.status lookup,
        st.results ++ [(k0, it0.status)], st.invalidNoKey⟩
      (fun it hit => hval it (List.mem_cons_of_mem _ hit))
      hndtl
      (by
        intro it hit k1 hk1
        have hne : k0 ≠ k1 := by
          intro he
          exact hnotmem (he ▸ List.mem_map.mpr ⟨it, hit, hk1⟩)
        dsimp only
        rw [hasResultKey_append, hdisj it (List.mem_cons_of_mem _ hit) k1 hk1]
        simp [hne])
      h0
      (by
        intro p hp
        dsimp only at hp
        rcases List.mem_append.mp hp with hl | hr
        · exact hgood p hl
        · rw [List.mem_singleton.mp hr]
          exact validStatus_not_rejection it0.status hs0)
    refine ⟨hih.1, hih.2.1, ?_⟩
    intro it hit k1 c1 hk1 hc1
    rcases List.mem_cons.mp hit with he | htl
    · have hk01 : k1 = k0 := by
        rw [he] at hk1
        exact Option.some.inj (hk1.symm.trans hk0)
      have hc01 : c1 = c0 := by
        rw [he] at hc1
        exact Option.some.inj (hc1.symm.trans hc0)
      have hkeep := foldl_keeps pk lookup k0 it0.status c0 tl
        ⟨upsertEnrollment st.db pk k0 c0 it0.status lookup,
          st.results ++ [(k0, it0.status)], st.invalidNoKey⟩
        (by
          dsimp only
          rw [hasResultKey_append, hnotseen]
          simp)
        (upsertEnrollment_recordFor st.db pk k0 c0 it0.status lookup)
      rw [he, hk01, hc01]
      exact hkeep.2
    · exact hih.2.2 it htl k1 c1 hk1 hc1

/-- C3: a batch of at most 25 items, each well-formed with a valid
status, with pairwise-distinct external user keys, answers 201, and
every item's submitted key, program, status and curriculum are
persisted in the store. -/
theorem post_distinct_valid_batch_created (pk : Uuid) (lookup : Uuid → String → Option Nat)
    (db0 : List ProgramEnrollment) (requests : List EnrollmentRequestItem)
    (hlen : requests.length ≤ 25)
    (hval : ∀ it ∈ requests, validItem it = true)
    (hnd : (requests.map (fun it => it.external_user_key)).Nodup) :
    (enrollmentsPost true lookup db0 pk requests).code = 201 ∧
    ∀ it ∈ requests, ∀ k c, it.external_user_key = some k →
      it.curriculum_uuid = some c →
      ∃ e ∈ (enrollmentsPost true lookup db0 pk requests).db,
        e.program_uuid = pk ∧ e.external_user_key = k ∧ e.status = it.status ∧
        e.curriculum_uuid = c := by
  have hm := reconcile_good pk lookup requests ⟨db0, [], 0⟩ hval hnd
    (fun it hit k1 hk1 => rfl) rfl (by simp)
  constructor
  · unfold enrollmentsPost
    rw [if_neg (by simp), if_neg (by omega)]
    dsimp only
    have h1 : (reconcile pk lookup db0 requests).invalidNoKey = 0 := hm.1
    have h2 : (reconcile pk lookup db0 requests).results.any
        (fun p => isRejectionToken p.2) = false := by
      rw [List.any_eq_false]
      intro p hp
      rw [hm.2.1 p hp]
      simp
    rw [h1, h2]
    rfl
  · intro it hit k c hk hc
    rw [(enrollmentsPost_eq lookup db0 pk requests hlen).1]
    exact hm.2.2 it hit k c hk hc

/-- Concrete instance of `post_distinct_valid_batch_created`: two
distinct valid items. -/
theorem post_distinct_valid_batch_created_inst :
    (enrollmentsPost true (fun _ _ => none) [] ⟨"p"⟩
      [⟨some "abc1", some ⟨"cu"⟩, "pending"⟩,
       ⟨some "efg2", some ⟨"cu"⟩, "enrolled"⟩]).code = 201 ∧
    ∀ it ∈ [(⟨some "abc1", some ⟨"cu"⟩, "pending"⟩ : EnrollmentRequestItem),
        ⟨some "efg2", some ⟨"cu"⟩, "enrolled"⟩], ∀ k c,
      it.external_user_key = some k → it.curriculum_uuid = some c →
      ∃ e ∈ (enrollmentsPost true (fun _ _ => none) [] ⟨"p"⟩
          [⟨some "abc1", some ⟨"cu"⟩, "pending"⟩,
           ⟨some "efg2", some ⟨"cu"⟩, "enrolled"⟩]).db,
        e.program_uuid = (⟨"p"⟩ : Uuid) ∧ e.external_user_key = k ∧
        e.status = it.status ∧ e.curriculum_uuid = c :=
  post_distinct_valid_batch_created ⟨"p"⟩ (fun _ _ => none) []
    [⟨some "abc1", some ⟨"cu"⟩, "pending"⟩, ⟨some "efg2", some ⟨"cu"⟩, "enrolled"⟩]
    (by simp) (by simp [validItem, validStatus]) (by simp)

lemma processItem_first_invalid (pk : Uuid) (lookup : Uuid → String → Option Nat)
    (st : ReconcileState) (k : String) (c : Uuid) (s : String)
    (hunseen : hasResultKey st.results k = false)
    (hs : validStatus s = false) :
    processItem pk lookup st ⟨some k, some c, s⟩ =
      { st with results := st.results ++ [(k, "invalid-status")] } := by
  unfold processItem
  dsimp only
  rw [if_neg (by rw [hunseen]; simp), if_neg (by simp [validItem, hs])]

/-- C6: an item whose status is not an accepted enum value is mapped
to `invalid-status` and persists nothing for its key, while the other
items of the batch are still processed: the two-item scenario
`[(001,new),(003,pending)]` answers 207 with body
`{001: invalid-status, 003: pending}`, and a batch whose only item
fails validation answers 422. -/
theorem invalid_status_item_rejected (pk : Uuid) (lookup : Uuid → String → Option Nat)
    (db0 : List ProgramEnrollment) (pre post : List EnrollmentRequestItem)
    (k : String) (c c1 c2 : Uuid) (s : String)
    (hs : validStatus s = false)
    (hk : ∀ it ∈ pre ++ post, it.external_user_key ≠ some k)
    (hlen : (pre ++ ⟨some k, some c, s⟩ :: post).length ≤ 25)
    (hdb : ∀ e ∈ db0, ¬(e.program_uuid = pk ∧ e.external_user_key = k)) :
    ((k, "invalid-status") ∈
        (enrollmentsPost true lookup db0 pk (pre ++ ⟨some k, some c, s⟩ :: post)).body ∧
      ∀ e ∈ (enrollmentsPost true lookup db0 pk (pre ++ ⟨some k, some c, s⟩ :: post)).db,
        ¬(e.program_uuid = pk ∧ e.external_user_key = k)) ∧
    ((enrollmentsPost true lookup db0 pk
        [⟨some "001", some c1, "new"⟩, ⟨some "003", some c2, "pending"⟩]).code = 207 ∧
      (enrollmentsPost true lookup db0 pk
        [⟨some "001", some c1, "new"⟩, ⟨some "003", some c2, "pending"⟩]).body
        = [("001", "invalid-status"), ("003", "pending")]) ∧
    (enrollmentsPost true lookup db0 pk [⟨some "001", some c1, "new"⟩]).code = 422 := by
  have hkpre : ∀ it ∈ pre, it.external_user_key ≠ some k :=
    fun it hit => hk it (List.mem_append_left _ hit)
  have hkpost : ∀ it ∈ post, it.external_user_key ≠ some k :=
    fun it hit => hk it (List.mem_append_right _ hit)
  refine ⟨?_, ?_, ?_⟩
  · rw [(enrollmentsPost_eq lookup db0 pk _ hlen).1,
      (enrollmentsPost_eq lookup db0 pk _ hlen).2]
    unfold reconcile
    rw [List.foldl_append, List.foldl_cons]
    have hunseen : hasResultKey (pre.foldl (processItem pk lookup)
        ⟨db0, [], 0⟩).results k = false :=
      foldl_unseen pk lookup k pre hkpre _ rfl
    rw [processItem_first_invalid pk lookup _ k c s hunseen hs]
    constructor
    · exact foldl_mem pk lookup (k, "invalid-status") post hkpost _
        (List.mem_append_right _ (by simp))
    · refine foldl_noRecord pk lookup k post hkpost _ ?_
      exact foldl_noRecord pk lookup k pre hkpre ⟨db0, [], 0⟩ hdb
  · constructor <;>
      simp [enrollmentsPost, reconcile, processItem, validItem, validStatus,
        hasResultKey, setResult, isRejectionToken]
  · simp [enrollmentsPost, reconcile, processItem, validItem, validStatus,
      hasResultKey, setResult, isRejectionToken]

/-- Concrete instance of `invalid_status_item_rejected`: a lone
invalid item with key `007`. -/
theorem invalid_status_item_rejected_inst :
    ((("007" : String), ("invalid-status" : String)) ∈
        (enrollmentsPost true (fun _ _ => none) [] ⟨"p"⟩
          ([] ++ ⟨some "007", some ⟨"c"⟩, "new"⟩ :: [])).body ∧
      ∀ e ∈ (enrollmentsPost true (fun _ _ => none) [] ⟨"p"⟩
          ([] ++ ⟨some "007", some ⟨"c"⟩, "new"⟩ :: [])).db,
        ¬(e.program_uuid = (⟨"p"⟩ : Uuid) ∧ e.external_user_key = "007")) ∧
    ((enrollmentsPost true (fun _ _ => none) [] ⟨"p"⟩
        [⟨some "001", some ⟨"c1"⟩, "new"⟩, ⟨some "003", some ⟨"c2"⟩, "pending"⟩]).code
        = 207 ∧
      (enrollmentsPost true (fun _ _ => none) [] ⟨"p"⟩
        [⟨some "001", some ⟨"c1"⟩, "new"⟩, ⟨some "003", some ⟨"c2"⟩, "pending"⟩]).body
        = [("001", "invalid-status"), ("003", "pending")]) ∧
    (enrollmentsPost true (fun _ _ => none) [] ⟨"p"⟩
      [⟨some "001", some ⟨"c1"⟩, "new"⟩]).code = 422 :=
  invalid_status_item_rejected ⟨"p"⟩ (fun _ _ => none) [] [] [] "007" ⟨"c"⟩ ⟨"c1"⟩ ⟨"c2"⟩
    "new" rfl (by simp) (by simp) (by simp)
